import Mathlib

/-!
Verification of the Tic-Tac-Toe game engine (`src/index.ts`) as a shallow
embedding. The game state is the `TicTacToe` class's mutable fields; the DOM
layer is modelled only where game-visible: the list of appended `.message`
elements (in document order), since `clearMessage` reads the first one and
crashes when none exists. All other `Display` calls render marks or scores
and never feed back into engine state, so they are dropped from the model.

JavaScript array indexing `arr[i]` yields `undefined` out of range; reading a
property of `undefined` (as in `this.board[row][col]` when `board[row]` is
undefined) throws. `arrGet?` models the first, and `clickCell` returns
`none` exactly when that throw happens. Cell values and players are the
source's strings: `""` (empty), `"x"`, `"o"`.
-/

namespace TicTacToe

/-- JS `arr[i]` for a number index: `none` models the value `undefined`
(negative or past-the-end index). -/
def arrGet? {α : Type} (xs : List α) (i : Int) : Option α :=
  if i < 0 then none else xs.get? i.toNat

/-- JS `board[row][col]` where reading past a present row gives `undefined`
(`none`); reading a missing row would throw, which callers model separately. -/
def readCell2 (board : List (List String)) (row col : Int) : Option String :=
  (arrGet? board row).bind (fun r => arrGet? r col)

/-- The `PlayerMark` record: `{ x: 'x', o: 'o' }`. -/
structure PlayerMark where
  x : String
  o : String
deriving Repr, DecidableEq

/-- Source: `this.players = { x: 'x', o: 'o' }`. -/
def players : PlayerMark := { x := "x", o := "o" }

/-- The `Score` record with a counter per player. -/
structure Score where
  x : Nat
  o : Nat
deriving Repr, DecidableEq

/-- The engine state: the `TicTacToe` fields `board`, `waiting`, `score`,
`currentPlayer`, plus `messages`, the `.message` DOM elements currently
appended under `#game` in document order (each `some w` a "`w` wins!"
element, `none` a "Nobody wins!" element). The constant `wait = 2500` is
kept separately as `waitDelay`. -/
structure GameState where
  board : List (List String)
  waiting : Bool
  score : Score
  currentPlayer : String
  messages : List (Option String)
deriving Repr, DecidableEq

/-- Source: `this.wait = 2500` (milliseconds before the scheduled reset fires). -/
def waitDelay : Nat := 2500

/-- Source `createBoard()`: a fresh 3x3 all-empty board. -/
def createBoard : List (List String) := [["", "", ""], ["", "", ""], ["", "", ""]]

/-- The state built by the constructor (before any click). -/
def initialState : GameState :=
  { board := createBoard
    waiting := false
    score := { x := 0, o := 0 }
    currentPlayer := players.x
    messages := [] }

/-- Source `isGameWon(row, col)`: the source's single boolean expression, pivoting
on the just-played cell — vertical (column `col`), horizontal (row `row`),
and the two diagonals. Run on the board after the move was written. -/
def isGameWon (board : List (List String)) (currentPlayer : String)
    (row col : Int) : Bool :=
  ((readCell2 board 0 col == some currentPlayer) &&
   (readCell2 board 1 col == some currentPlayer) &&
   (readCell2 board 2 col == some currentPlayer)) ||
  ((readCell2 board row 0 == some currentPlayer) &&
   (readCell2 board row 1 == some currentPlayer) &&
   (readCell2 board row 2 == some currentPlayer)) ||
  (((readCell2 board 0 0 == some currentPlayer) &&
    (readCell2 board 1 1 == some currentPlayer) &&
    (readCell2 board 2 2 == some currentPlayer)) ||
   ((readCell2 board 2 0 == some currentPlayer) &&
    (readCell2 board 1 1 == some currentPlayer) &&
    (readCell2 board 0 2 == some currentPlayer)))

/-- The `stalemate` expression of `clickCell`: keep each row's empty cells,
then keep the rows that still have at least one. Empty result = full board. -/
def stalemateRows (board : List (List String)) : List (List String) :=
  (board.map (fun row => row.filter (fun col => col == ""))).filter
    (fun row => row.length > 0)

/-- Source `switchPlayer()`: `currentPlayer === players.x ? players.o : players.x`. -/
def switchPlayer (currentPlayer : String) : String :=
  if currentPlayer = players.x then players.o else players.x

/-- Source `increaseScore()`: `score[currentPlayer] += 1`. In every reachable state
`currentPlayer` is one of the two keys `"x"`/`"o"` of the `Score` record;
the model bumps the matching field. -/
def increaseScore (score : Score) (currentPlayer : String) : Score :=
  if currentPlayer = players.x then { score with x := score.x + 1 }
  else { score with o := score.o + 1 }

/-- Source `printMessage(winner)`: appends one `.message` element under `#game`
(`winner ? "… wins!" : "Nobody wins!"`). -/
def printMessage (messages : List (Option String)) (winner : Option String) :
    List (Option String) :=
  messages ++ [winner]

/-- Source `gameOver(winner?)`: set `waiting`, print the end-of-round message. The
`setTimeout` body is the separate transition `fireReset`, fired later. -/
def gameOver (st : GameState) (winner : Option String) : GameState :=
  { st with waiting := true, messages := printMessage st.messages winner }

/-- Source `clearMessage()`: `document.querySelector('.message').remove()` — takes
the first `.message` element in document order; `none` models the thrown
null dereference when no message element exists. -/
def clearMessage (messages : List (Option String)) :
    Option (List (Option String)) :=
  match messages with
  | [] => none
  | _ :: rest => some rest

/-- Source `resetBoard()`: clear the message (may throw), clear the board marks
(display only), set `board` to a fresh empty board. -/
def resetBoard (st : GameState) : Option GameState :=
  match clearMessage st.messages with
  | none => none
  | some msgs => some { st with messages := msgs, board := createBoard }

/-- The `setTimeout` callback scheduled by `gameOver`: `resetBoard()` then
`waiting = false`. -/
def fireReset (st : GameState) : Option GameState :=
  match resetBoard st with
  | none => none
  | some st2 => some { st2 with waiting := false }

/-- Source `clickCell(row, col)`. The first statement reads `board[row][col]`; when
`board[row]` is `undefined` that read throws (`none`). Otherwise the guard
`canContinue && !waiting` admits the move, the mark is written, and the
win / stalemate / switch branches run under the source's inner re-check of
`waiting`. -/
def clickCell (st : GameState) (row col : Int) : Option GameState :=
  match arrGet? st.board row with
  | none => none
  | some boardRow =>
    let canContinue := arrGet? boardRow col == some ""
    if canContinue && !st.waiting then
      let newBoard := st.board.set row.toNat
        (boardRow.set col.toNat st.currentPlayer)
      let win := isGameWon newBoard st.currentPlayer row col
      let stalemate := stalemateRows newBoard
      if !st.waiting then
        if win then
          some (gameOver
            { st with board := newBoard
                      score := increaseScore st.score st.currentPlayer }
            (some st.currentPlayer))
        else if stalemate.length < 1 then
          some (gameOver { st with board := newBoard } none)
        else
          some { st with board := newBoard
                         currentPlayer := switchPlayer st.currentPlayer }
      else
        some { st with board := newBoard }
    else
      some st

/-- The board written by an accepted move at (row, col): the just-played
mark over the old board (meaningful when the read row exists). -/
def boardAfterMove (st : GameState) (row col : Int) : List (List String) :=
  match arrGet? st.board row with
  | none => st.board
  | some boardRow =>
    st.board.set row.toNat (boardRow.set col.toNat st.currentPlayer)

/-- The states the running game can be in: the constructor's state, then
clicks that return normally, and the scheduled reset firing (a timer is
pending exactly while `waiting`). -/
inductive Reachable : GameState → Prop where
  | init : Reachable initialState
  | click (st st' : GameState) (row col : Int) :
      Reachable st → clickCell st row col = some st' → Reachable st'
  | reset (st st' : GameState) :
      Reachable st → st.waiting = true → fireReset st = some st' →
      Reachable st'

/-- A sequence of clicks, used to exhibit concrete reachable states. -/
def runClicks : GameState → List (Int × Int) → Option GameState
  | st, [] => some st
  | st, (r, c) :: rest =>
    match clickCell st r c with
    | none => none
    | some st' => runClicks st' rest

/-- Variant of `clickCell` with the inner `if (!this.waiting)` re-check removed;
everything else identical. Used to show the re-check is redundant. -/
def clickCellNoRecheck (st : GameState) (row col : Int) : Option GameState :=
  match arrGet? st.board row with
  | none => none
  | some boardRow =>
    let canContinue := arrGet? boardRow col == some ""
    if canContinue && !st.waiting then
      let newBoard := st.board.set row.toNat
        (boardRow.set col.toNat st.currentPlayer)
      let win := isGameWon newBoard st.currentPlayer row col
      let stalemate := stalemateRows newBoard
      if win then
        some (gameOver
          { st with board := newBoard
                    score := increaseScore st.score st.currentPlayer }
          (some st.currentPlayer))
      else if stalemate.length < 1 then
        some (gameOver { st with board := newBoard } none)
      else
        some { st with board := newBoard
                       currentPlayer := switchPlayer st.currentPlayer }
    else
      some st

/-! ### The 8 winning lines and the spec's named pivoted checks -/

/-- The 8 winning line configurations: 3 rows, 3 columns, 2 diagonals. -/
def winningLines : List (List (Int × Int)) :=
  [ [(0, 0), (0, 1), (0, 2)], [(1, 0), (1, 1), (1, 2)], [(2, 0), (2, 1), (2, 2)],
    [(0, 0), (1, 0), (2, 0)], [(0, 1), (1, 1), (2, 1)], [(0, 2), (1, 2), (2, 2)],
    [(0, 0), (1, 1), (2, 2)], [(2, 0), (1, 1), (0, 2)] ]

/-- The spec's column-wise check: all three rows at `col` equal the player. -/
def columnCheck (b : List (List String)) (p : String) (col : Int) : Bool :=
  (readCell2 b 0 col == some p) && (readCell2 b 1 col == some p) &&
  (readCell2 b 2 col == some p)

/-- The spec's row-wise check: all three columns at `row` equal the player. -/
def rowCheck (b : List (List String)) (p : String) (row : Int) : Bool :=
  (readCell2 b row 0 == some p) && (readCell2 b row 1 == some p) &&
  (readCell2 b row 2 == some p)

/-- The spec's main-diagonal check: (0,0)-(1,1)-(2,2). -/
def diagCheckMain (b : List (List String)) (p : String) : Bool :=
  (readCell2 b 0 0 == some p) && (readCell2 b 1 1 == some p) &&
  (readCell2 b 2 2 == some p)

/-- The spec's anti-diagonal check: (2,0)-(1,1)-(0,2). -/
def diagCheckAnti (b : List (List String)) (p : String) : Bool :=
  (readCell2 b 2 0 == some p) && (readCell2 b 1 1 == some p) &&
  (readCell2 b 0 2 == some p)

/-! ### Concrete states for witnesses -/

/-- The state after x(0,0), o(1,0), x(0,1), o(1,1): x is one move away from
completing row 0. -/
def preWinState : GameState :=
  { board := [["x", "x", ""], ["o", "o", ""], ["", "", ""]]
    waiting := false
    score := { x := 0, o := 0 }
    currentPlayer := "x"
    messages := [] }

/-- The state right after x completes row 0 from `preWinState`: round over,
waiting for the scheduled reset. -/
def demoWaitingState : GameState :=
  { board := [["x", "x", "x"], ["o", "o", ""], ["", "", ""]]
    waiting := true
    score := { x := 1, o := 0 }
    currentPlayer := "x"
    messages := [some "x"] }

/-- A board with only (2,2) empty and x to move: x's move there both fills
the board and completes the main diagonal. -/
def fullWinPre : GameState :=
  { board := [["x", "o", "o"], ["x", "x", "o"], ["o", "x", ""]]
    waiting := false
    score := { x := 0, o := 0 }
    currentPlayer := "x"
    messages := [] }

/-- The round-end state produced by x's final, winning move from
`fullWinPre`. -/
def fullWinState : GameState :=
  { board := [["x", "o", "o"], ["x", "x", "o"], ["o", "x", "x"]]
    waiting := true
    score := { x := 1, o := 0 }
    currentPlayer := "x"
    messages := [some "x"] }

/-! ### Helper lemmas -/

theorem clickCell_board_length (st st' : GameState) (row col : Int)
    (h : clickCell st row col = some st') :
    st'.board.length = st.board.length := by
  unfold clickCell at h
  cases hg : arrGet? st.board row <;> rw [hg] at h
  · exact Option.noConfusion h
  · simp only at h
    split at h
    · split at h
      · split at h
        · injection h with h2
          subst h2
          simp [gameOver, List.length_set]
        · split at h
          · injection h with h2
            subst h2
            simp [gameOver, List.length_set]
          · injection h with h2
            subst h2
            simp [List.length_set]
      · injection h with h2
        subst h2
        simp [List.length_set]
    · injection h with h2
      subst h2
      rfl

theorem reachable_board_length (st : GameState) (h : Reachable st) :
    st.board.length = 3 := by
  induction h with
  | init => rfl
  | click st st' row col _ hstep ih =>
    rw [clickCell_board_length st st' row col hstep]; exact ih
  | reset st st' _ hw hstep ih =>
    unfold fireReset resetBoard at hstep
    cases hm : clearMessage st.messages <;> rw [hm] at hstep
    · exact Option.noConfusion hstep
    · injection hstep with h2
      subst h2
      rfl

theorem runClicks_reachable (moves : List (Int × Int)) :
    ∀ st st' : GameState, Reachable st → runClicks st moves = some st' →
      Reachable st' := by
  induction moves with
  | nil =>
    intro st st' h hr
    unfold runClicks at hr
    injection hr with h2
    subst h2
    exact h
  | cons rc rest ih =>
    intro st st' h hr
    obtain ⟨r, c⟩ := rc
    unfold runClicks at hr
    cases hc : clickCell st r c <;> rw [hc] at hr
    · exact Option.noConfusion hr
    · exact ih _ st' (Reachable.click st _ r c h hc) hr

theorem readCell2_split (b : List (List String)) (row col : Int) (v : String)
    (h : readCell2 b row col = some v) :
    ∃ r, arrGet? b row = some r ∧ arrGet? r col = some v := by
  unfold readCell2 at h
  cases hg : arrGet? b row <;> rw [hg] at h
  · exact Option.noConfusion h
  · simp only [Option.some_bind] at h
    exact ⟨_, rfl, h⟩

/-- An accepted move (empty cell, not waiting) runs exactly the three
branches win / stalemate / switch over the board with the mark written. -/
theorem clickCell_accepted (st : GameState) (row col : Int)
    (boardRow : List String)
    (hg : arrGet? st.board row = some boardRow)
    (hcell : arrGet? boardRow col = some "")
    (hw : st.waiting = false) :
    clickCell st row col =
      (if isGameWon (boardAfterMove st row col) st.currentPlayer row col then
        some (gameOver
          { st with board := boardAfterMove st row col
                    score := increaseScore st.score st.currentPlayer }
          (some st.currentPlayer))
      else if (stalemateRows (boardAfterMove st row col)).length < 1 then
        some (gameOver { st with board := boardAfterMove st row col } none)
      else
        some { st with board := boardAfterMove st row col
                       currentPlayer := switchPlayer st.currentPlayer }) := by
  have hba : boardAfterMove st row col =
      st.board.set row.toNat (boardRow.set col.toNat st.currentPlayer) := by
    unfold boardAfterMove
    rw [hg]
  unfold clickCell
  rw [hg, hba]
  simp [hcell, hw]

/-! ### Claims -/

theorem demoWaitingState_reachable : Reachable demoWaitingState :=
  runClicks_reachable [(0, 0), (1, 0), (0, 1), (1, 1), (0, 2)]
    initialState demoWaitingState Reachable.init (by decide)

/-- C1: `isGameWon(row, col)` performs exactly the pivoted checks — column
`col`, row `row`, and both diagonals, any one triggering a win — and for
every player `p`, every board in which `p`'s mark fills all three cells of
one of the 8 winning lines, and every position on that line given as the
just-played move, it returns `true`. -/
theorem isGameWon_winning_lines :
    (∀ (b : List (List String)) (p : String) (row col : Int),
      isGameWon b p row col =
        (columnCheck b p col || rowCheck b p row ||
          (diagCheckMain b p || diagCheckAnti b p))) ∧
    (∀ (p : String) (b : List (List String)) (line : List (Int × Int)),
      line ∈ winningLines →
      (∀ rc ∈ line, readCell2 b rc.1 rc.2 = some p) →
      ∀ rc ∈ line, isGameWon b p rc.1 rc.2 = true) := by
  constructor
  · intro b p row col
    rfl
  · intro p b line hline hfill rc hrc
    simp only [winningLines, List.mem_cons, List.not_mem_nil, or_false] at hline
    rcases hline with h|h|h|h|h|h|h|h <;> subst h <;>
      simp only [List.mem_cons, List.not_mem_nil, or_false, forall_eq_or_imp,
        forall_eq] at hfill hrc <;>
      obtain ⟨h1, h2, h3⟩ := hfill <;>
      rcases hrc with h|h|h <;> subst h <;>
      simp [isGameWon, h1, h2, h3]

theorem isGameWon_winning_lines_witness :
    isGameWon [["", "", "o"], ["", "o", ""], ["o", "", ""]] "o" 1 1 = true :=
  isGameWon_winning_lines.2 "o" [["", "", "o"], ["", "o", ""], ["o", "", ""]]
    [(2, 0), (1, 1), (0, 2)] (by decide) (by decide) (1, 1) (by decide)

/-- C2: clicking an occupied cell (0 ≤ row, col ≤ 2, cell value non-empty)
is a no-op: board, current player, score and waiting flag all unchanged. -/
theorem clickCell_occupied_cell_noop (st : GameState) (row col : Int)
    (v : String)
    (hrow : 0 ≤ row ∧ row ≤ 2) (hcol : 0 ≤ col ∧ col ≤ 2)
    (hread : readCell2 st.board row col = some v) (hv : v ≠ "") :
    clickCell st row col = some st := by
  obtain ⟨boardRow, hg, hcell⟩ := readCell2_split st.board row col v hread
  unfold clickCell
  rw [hg]
  have hc : (arrGet? boardRow col == some "") = false := by
    simp [hcell, hv]
  simp [hc]

theorem clickCell_occupied_cell_noop_witness :
    clickCell demoWaitingState 0 0 = some demoWaitingState :=
  clickCell_occupied_cell_noop demoWaitingState 0 0 "x"
    (by decide) (by decide) (by decide) (by decide)

/-- C3: in every reachable state with `waiting = true`, a click on any cell
(0 ≤ row, col ≤ 2) leaves the state — in particular the board — unchanged:
no move is accepted during the post-round delay window. -/
theorem clickCell_waiting_noop (st : GameState) (row col : Int)
    (hre : Reachable st) (hw : st.waiting = true)
    (hrow : 0 ≤ row ∧ row ≤ 2) (hcol : 0 ≤ col ∧ col ≤ 2) :
    clickCell st row col = some st := by
  have hlen := reachable_board_length st hre
  cases hq : st.board.get? row.toNat with
  | none =>
    have := List.get?_eq_none.mp hq
    omega
  | some r =>
    unfold clickCell arrGet?
    rw [if_neg (by omega : ¬ row < 0), hq]
    simp [hw]

theorem clickCell_waiting_noop_witness :
    clickCell demoWaitingState 2 2 = some demoWaitingState :=
  clickCell_waiting_noop demoWaitingState 2 2 demoWaitingState_reachable
    rfl (by decide) (by decide)

/-- C4: on an accepted move (empty cell, not waiting), a winning move bumps
the moving player's score by exactly 1 and leaves the other player's score
unchanged; a move that ends in stalemate or continues the round leaves both
scores unchanged. -/
theorem clickCell_score_change (st st' : GameState) (row col : Int)
    (hread : readCell2 st.board row col = some "")
    (hw : st.waiting = false)
    (hp : st.currentPlayer = players.x ∨ st.currentPlayer = players.o)
    (h : clickCell st row col = some st') :
    (isGameWon (boardAfterMove st row col) st.currentPlayer row col = true →
      (st.currentPlayer = players.x →
        st'.score = { x := st.score.x + 1, o := st.score.o }) ∧
      (st.currentPlayer = players.o →
        st'.score = { x := st.score.x, o := st.score.o + 1 })) ∧
    (isGameWon (boardAfterMove st row col) st.currentPlayer row col = false →
      st'.score = st.score) := by
  obtain ⟨boardRow, hg, hcell⟩ := readCell2_split st.board row col "" hread
  rw [clickCell_accepted st row col boardRow hg hcell hw] at h
  constructor
  · intro hwin
    rw [hwin] at h
    simp only [if_pos] at h
    injection h with h2
    subst h2
    constructor
    · intro hpx
      simp [gameOver, increaseScore, hpx]
    · intro hpo
      rcases hp with hpx | _
      · rw [hpx] at hpo
        exact absurd hpo (by decide)
      · simp [gameOver, increaseScore, hpo, players]
  · intro hwin
    rw [hwin] at h
    simp only [Bool.false_eq_true, if_false] at h
    split at h <;>
    · injection h with h2
      subst h2
      simp [gameOver]

theorem clickCell_score_change_witness :
    demoWaitingState.score =
      { x := preWinState.score.x + 1, o := preWinState.score.o } :=
  ((clickCell_score_change preWinState demoWaitingState 0 2
      (by decide) rfl (Or.inl rfl) (by decide)).1 (by decide)).1 rfl

/-- C5: an accepted move (empty cell, not waiting) that neither wins nor
fills the board switches the current player to the other of the two
identifiers "x" and "o". -/
theorem clickCell_alternates_player (st st' : GameState) (row col : Int)
    (hread : readCell2 st.board row col = some "")
    (hw : st.waiting = false)
    (hwin : isGameWon (boardAfterMove st row col) st.currentPlayer row col
      = false)
    (hfull : stalemateRows (boardAfterMove st row col) ≠ [])
    (h : clickCell st row col = some st') :
    st'.currentPlayer = switchPlayer st.currentPlayer ∧
    (st.currentPlayer = players.x → st'.currentPlayer = players.o) ∧
    (st.currentPlayer = players.o → st'.currentPlayer = players.x) := by
  obtain ⟨boardRow, hg, hcell⟩ := readCell2_split st.board row col "" hread
  rw [clickCell_accepted st row col boardRow hg hcell hw] at h
  rw [hwin] at h
  have hs : ¬ ((stalemateRows (boardAfterMove st row col)).length < 1) := by
    simp [Nat.lt_one_iff, List.length_eq_zero, hfull]
  rw [if_neg (by simp), if_neg hs] at h
  injection h with h2
  subst h2
  refine ⟨rfl, ?_, ?_⟩
  · intro hpx
    simp [switchPlayer, hpx]
  · intro hpo
    simp [switchPlayer, hpo, players]

theorem clickCell_alternates_player_witness :
    ({ initialState with
        board := [["x", "", ""], ["", "", ""], ["", "", ""]]
        currentPlayer := "o" } : GameState).currentPlayer = players.o :=
  (clickCell_alternates_player initialState
    { initialState with
        board := [["x", "", ""], ["", "", ""], ["", "", ""]]
        currentPlayer := "o" }
    0 0 (by decide) rfl (by decide) (by decide) (by decide)).2.1 rfl

/-- C6: an accepted move that both completes a winning line and leaves no
empty cell ends the round as a win for the mover — score incremented,
winner message for the current player, waiting set — not as a stalemate;
the stalemate message (winner = none) is appended exactly when the board is
full and the move did not win. -/
theorem clickCell_win_beats_stalemate (st st' : GameState) (row col : Int)
    (hread : readCell2 st.board row col = some "")
    (hw : st.waiting = false)
    (h : clickCell st row col = some st') :
    (isGameWon (boardAfterMove st row col) st.currentPlayer row col = true →
      stalemateRows (boardAfterMove st row col) = [] →
      st'.score = increaseScore st.score st.currentPlayer ∧
      st'.messages = st.messages ++ [some st.currentPlayer] ∧
      st'.waiting = true) ∧
    (st'.messages = st.messages ++ [none] ↔
      (isGameWon (boardAfterMove st row col) st.currentPlayer row col = false ∧
        stalemateRows (boardAfterMove st row col) = [])) := by
  obtain ⟨boardRow, hg, hcell⟩ := readCell2_split st.board row col "" hread
  rw [clickCell_accepted st row col boardRow hg hcell hw] at h
  cases hwin : isGameWon (boardAfterMove st row col) st.currentPlayer row col
  · rw [hwin] at h
    simp only [Bool.false_eq_true, if_false] at h
    refine ⟨fun hcontr _ => absurd hcontr (by simp), ?_⟩
    by_cases hs : (stalemateRows (boardAfterMove st row col)).length < 1
    · rw [if_pos hs] at h
      injection h with h2
      subst h2
      have hfull : stalemateRows (boardAfterMove st row col) = [] := by
        rw [← List.length_eq_zero]
        omega
      simp [gameOver, printMessage, hfull]
    · rw [if_neg hs] at h
      injection h with h2
      subst h2
      constructor
      · intro heq
        have := congrArg List.length heq
        simp at this
      · rintro ⟨-, hfull⟩
        rw [hfull] at hs
        exact absurd (by simp : ([] : List (List String)).length < 1) hs
  · rw [hwin] at h
    simp only [if_pos] at h
    injection h with h2
    subst h2
    refine ⟨fun _ _ => ⟨rfl, rfl, rfl⟩, ?_⟩
    constructor
    · intro heq
      have := List.append_inj_right heq (by rfl)
      exact absurd this (by simp)
    · rintro ⟨hcontr, -⟩
      exact absurd hcontr (by simp)

theorem clickCell_win_beats_stalemate_witness :
    fullWinState.score = increaseScore fullWinPre.score fullWinPre.currentPlayer ∧
    fullWinState.messages = fullWinPre.messages ++ [some fullWinPre.currentPlayer] ∧
    fullWinState.waiting = true :=
  (clickCell_win_beats_stalemate fullWinPre fullWinState 2 2
      (by decide) rfl (by decide)).1 (by decide) (by decide)

/-- C7: in a round-end state (waiting, message pending), the scheduled
reset produces the all-empty board, clears waiting, and keeps the current
player and the score exactly as they were. -/
theorem fireReset_resets_board_keeps_player (st : GameState)
    (hw : st.waiting = true) (hm : st.messages ≠ []) :
    (∃ st', fireReset st = some st' ∧
      st'.board = createBoard ∧ st'.waiting = false ∧
      st'.currentPlayer = st.currentPlayer ∧ st'.score = st.score) ∧
    (∀ r ∈ createBoard, ∀ c ∈ r, c = "") := by
  obtain ⟨m, rest, hmsg⟩ : ∃ m rest, st.messages = m :: rest := by
    cases hms : st.messages with
    | nil => exact absurd hms hm
    | cons m rest => exact ⟨m, rest, rfl⟩
  refine ⟨⟨{ st with board := createBoard, waiting := false, messages := rest },
    ?_, rfl, rfl, rfl, rfl⟩, by decide⟩
  unfold fireReset resetBoard clearMessage
  rw [hmsg]

theorem fireReset_resets_board_keeps_player_witness :
    (∃ st', fireReset demoWaitingState = some st' ∧
      st'.board = createBoard ∧ st'.waiting = false ∧
      st'.currentPlayer = demoWaitingState.currentPlayer ∧
      st'.score = demoWaitingState.score) ∧
    (∀ r ∈ createBoard, ∀ c ∈ r, c = "") :=
  fireReset_resets_board_keeps_player demoWaitingState rfl (by decide)

/-- C8: `clearMessage` raises (null dereference, modelled as `none`) exactly
when no message element is present, and succeeds — removing a message —
whenever a prior `printMessage` displayed one that was not yet cleared. -/
theorem clearMessage_fails_iff_no_message :
    (∀ messages : List (Option String),
      (clearMessage messages = none ↔ messages = [])) ∧
    (∀ (messages : List (Option String)) (winner : Option String),
      ∃ rest, clearMessage (printMessage messages winner) = some rest) := by
  constructor
  · intro messages
    cases messages <;> simp [clearMessage]
  · intro messages winner
    cases messages <;> exact ⟨_, rfl⟩

/-- C9: `clickCell` does not guard its indices: whenever `row` is outside
0..2 on the game's 3-row board, the very first read `board[row][col]`
faults, so the click handler is not total over arbitrary integers. -/
theorem clickCell_row_out_of_range_faults (st : GameState) (row col : Int)
    (hlen : st.board.length = 3) (hrow : row < 0 ∨ 3 ≤ row) :
    clickCell st row col = none := by
  unfold clickCell arrGet?
  rcases hrow with h | h
  · rw [if_pos h]
  · rw [if_neg (by omega), List.get?_eq_none.mpr (by omega)]

theorem clickCell_row_out_of_range_faults_witness :
    clickCell initialState 3 0 = none :=
  clickCell_row_out_of_range_faults initialState 3 0 rfl (Or.inr (by decide))

/-- C10: the inner re-check of `waiting` inside `clickCell` is redundant —
nothing between the outer guard and the inner check mutates `waiting`, so
`clickCell` agrees with the version with the inner `if (!this.waiting)`
removed on every state and input. -/
theorem clickCell_inner_check_redundant (st : GameState) (row col : Int) :
    clickCell st row col = clickCellNoRecheck st row col := by
  unfold clickCell clickCellNoRecheck
  cases arrGet? st.board row
  · rfl
  · cases hw : st.waiting <;> simp [hw]

end TicTacToe
